import Mathlib

/-!
Shallow embedding of the `ResumeAnalyzer` class from
`src/deep seek resume/resume_analyzer.py`.

Text is modelled as `List Char`.  The two fixed regular expressions of the Python code
(email and phone) are modelled by a small backtracking matcher over a
regex AST restricted to exactly the constructs those patterns use
(character classes, concatenation, greedy option, greedy bounded class
repetition, a single capture group, word boundaries).  Python `re.findall`
semantics are mirrored: for a pattern with no group the full match texts
are returned, for a pattern with one group the group texts are returned,
with an unmatched optional group yielding the empty string.

Scores are modelled in `ℚ`; the Python call `round(x, 2)` is modelled as
`round2`, rounding to two decimal places.
-/

/-- Python `str.lower()` restricted to the ASCII texts the analyzer sees. -/
def lowerStr (s : List Char) : List Char := s.map Char.toLower

/-- True when the first list is a prefix of the second (Python slice equality). -/
def leadsList : List Char → List Char → Bool
  | [], _ => true
  | _ :: _, [] => false
  | a :: xs, b :: ys => a == b && leadsList xs ys

/-- Substring containment `needle in hay` of Python, for strings. -/
def occursIn (needle : List Char) : List Char → Bool
  | [] => leadsList needle []
  | c :: t => leadsList needle (c :: t) || occursIn needle t

/-- The whitespace characters Python `str.split()` splits on (ASCII). -/
def isSpaceCh (c : Char) : Bool :=
  c = ' ' || c = '\t' || c = '\n' || c = '\r' || c = Char.ofNat 11 || c = Char.ofNat 12

/-- Token counter for Python `len(text.split())`: counts maximal
non-whitespace runs; the flag records whether we are inside a run. -/
def countTokens : Bool → List Char → Nat
  | _, [] => 0
  | inWord, c :: t =>
    if isSpaceCh c then countTokens false t
    else (if inWord then 0 else 1) + countTokens true t

/-- Python `len(text.split())`. -/
def wordCount (s : List Char) : Nat := countTokens false s

/-- Python `round(q, 2)`: round to two decimal places. -/
def round2 (q : ℚ) : ℚ := ((round (q * 100) : ℤ) : ℚ) / 100

/-- The fixed keyword vocabulary from `ResumeAnalyzer.__init__`. -/
def keyword_categories : List (String × List String) :=
  [("technical_skills",
    ["python", "java", "javascript", "sql", "html", "css", "react", "git", "aws"]),
   ("soft_skills",
    ["communication", "leadership", "teamwork", "problem solving", "time management"]),
   ("action_verbs",
    ["developed", "managed", "implemented", "created", "led", "analyzed"])]

/-- The fixed section-pattern table from `detect_sections`; each regex is an
alternation of literal strings, so a `re.search` hit is exactly "some
alternative occurs in the lowered text". -/
def section_patterns : List (String × List String) :=
  [("contact_info", ["contact", "phone", "email", "address"]),
   ("experience", ["experience", "work history", "employment"]),
   ("education", ["education", "academic"]),
   ("skills", ["skills", "technical skills"]),
   ("projects", ["projects", "portfolio"])]

/-- Model of `ResumeAnalyzer.detect_sections`: a section tag is emitted (in table
order) when its pattern matches the lowered text. -/
def detect_sections (text : List Char) : List String :=
  (section_patterns.filter
    (fun p => p.2.any (fun alt => occursIn alt.toList (lowerStr text)))).map (fun p => p.1)

/-- The `important_sections` list from `find_missing_sections`. -/
def important_sections : List String :=
  ["contact_info", "experience", "education", "skills"]

/-- Model of `ResumeAnalyzer.find_missing_sections`. -/
def find_missing_sections (found_sections : List String) : List String :=
  important_sections.filter (fun s => decide (s ∉ found_sections))

/-- Per-category keyword score, one value of the `scores` dict built by
`analyze_keywords`. -/
structure KScore where
  coverage_percentage : ℚ
  found_keywords : List String
  missing_keywords : List String
deriving DecidableEq

/-- The body of the `analyze_keywords` loop for one category. -/
def kscoreOf (text : List Char) (keywords : List String) : KScore :=
  let found := keywords.filter (fun kw => occursIn kw.toList (lowerStr text))
  let coverage : ℚ :=
    if keywords.isEmpty then 0 else ((found.length : ℚ) / (keywords.length : ℚ)) * 100
  { coverage_percentage := round2 coverage
    found_keywords := found
    missing_keywords := keywords.filter (fun kw => decide (kw ∉ found)) }

/-- Model of `ResumeAnalyzer.analyze_keywords`. -/
def analyze_keywords (text : List Char) : List (String × KScore) :=
  keyword_categories.map (fun c => (c.1, kscoreOf text c.2))

/-- Regex AST covering exactly the constructs of the two fixed analyzer
patterns: character classes, concatenation, greedy option, a capture
group, greedy (bounded) class repetition, and word boundaries. -/
inductive RE where
  | cls (p : Char → Bool)
  | seq (a b : RE)
  | opt (a : RE)
  | grp (a : RE)
  | rep (p : Char → Bool) (lo : Nat) (hi : Option Nat)
  | wb

/-- The text captured by group 1, `none` while the group has not matched. -/
abbrev GrpCap := Option (List Char)

/-- Python `\w` (ASCII): letters, digits, underscore. -/
def isWordChar (c : Char) : Bool := c.isAlphanum || c = '_'

/-- Python `\b`: the previous character and the next character disagree on
word-char-ness (a missing character counts as a non-word character). -/
def wordBoundary (prev : Option Char) (rest : List Char) : Bool :=
  (match prev with | some c => isWordChar c | none => false)
    != (match rest with | c :: _ => isWordChar c | [] => false)

/-- Length of the maximal run of class characters at the front. -/
def runLen (p : Char → Bool) : List Char → Nat
  | [] => 0
  | c :: t => if p c then runLen p t + 1 else 0

/-- Greedy class repetition: consume `j` characters for `j` counting down
from the initial (maximal feasible) count to `lo`; the first continuation
success wins, mirroring the preference of a backtracking engine for longer
matches. -/
def tryRep {α : Type} (prev : Option Char) (rest : List Char) (g : GrpCap)
    (k : Option Char → List Char → GrpCap → Option α) (lo : Nat) : Nat → Option α
  | 0 => if lo = 0 then k prev rest g else none
  | j + 1 =>
    if j + 1 < lo then none
    else (k (rest.get? j) (rest.drop (j + 1)) g).orElse (fun _ => tryRep prev rest g k lo j)

/-- Backtracking matcher in continuation-passing style.  `prev` is the
character just before the current position (for `\b`), `rest` the
remaining input, `g` the current group-1 capture.  Alternatives are tried
in the same order as the Python backtracking engine: an optional item is
tried present-first, repetitions longest-first. -/
def mrun {α : Type} : RE → Option Char → List Char → GrpCap →
    (Option Char → List Char → GrpCap → Option α) → Option α
  | .cls p, _, c :: rest, g, k => if p c then k (some c) rest g else none
  | .cls _, _, [], _, _ => none
  | .seq a b, prev, rest, g, k => mrun a prev rest g (fun p2 r2 g2 => mrun b p2 r2 g2 k)
  | .opt a, prev, rest, g, k => (mrun a prev rest g k).orElse (fun _ => k prev rest g)
  | .grp a, prev, rest, g, k =>
      mrun a prev rest g (fun p2 r2 _ => k p2 r2 (some (rest.take (rest.length - r2.length))))
  | .rep p lo hi, prev, rest, g, k =>
      tryRep prev rest g k lo
        (match hi with | some h => min (runLen p rest) h | none => runLen p rest)
  | .wb, prev, rest, g, k => if wordBoundary prev rest then k prev rest g else none

/-- Try to match `re` at position `i` of `s`; on success return the length
of the match and the group-1 capture. -/
def matchAt (re : RE) (s : List Char) (i : Nat) : Option (Nat × GrpCap) :=
  let rest := s.drop i
  mrun re (if i = 0 then none else s.get? (i - 1)) rest none
    (fun _ r2 g => some (rest.length - r2.length, g))

/-- Python `re.findall` scanning loop: try every position left to right,
emit each (non-overlapping) match and continue after it. -/
def scanFrom (re : RE) (s : List Char) : Nat → Nat → List (List Char × GrpCap)
  | 0, _ => []
  | fuel + 1, i =>
    if s.length < i then []
    else
      match matchAt re s i with
      | some (len, g) => ((s.drop i).take len, g) :: scanFrom re s fuel (i + max len 1)
      | none => scanFrom re s fuel (i + 1)

/-- All matches of `re` in `s`, each with its matched text and group capture. -/
def findallPairs (re : RE) (s : List Char) : List (List Char × GrpCap) :=
  scanFrom re s (s.length + 1) 0

/-- Python `re.search` scanning loop: the leftmost match, if any. -/
def searchFrom (re : RE) (s : List Char) : Nat → Nat → Option (List Char × GrpCap)
  | 0, _ => none
  | fuel + 1, i =>
    if s.length < i then none
    else
      match matchAt re s i with
      | some (len, g) => some ((s.drop i).take len, g)
      | none => searchFrom re s fuel (i + 1)

/-- The leftmost match of `re` in `s` (matched text and group capture). -/
def reSearch (re : RE) (s : List Char) : Option (List Char × GrpCap) :=
  searchFrom re s (s.length + 1) 0

/-- The matched texts of all matches (Python `findall` for a groupless pattern). -/
def findallFulls (re : RE) (s : List Char) : List (List Char) :=
  (findallPairs re s).map (fun m => m.1)

def digitCh (c : Char) : Bool := c.isDigit

/-- The class `[-.\s]` of the phone pattern. -/
def sepCh (c : Char) : Bool := c = '-' || c = '.' || isSpaceCh c

/-- The class `[A-Za-z0-9._%+-]` (local part of the email pattern). -/
def emailLocalCh (c : Char) : Bool :=
  c.isAlpha || c.isDigit || c = '.' || c = '_' || c = '%' || c = '+' || c = '-'

/-- The class `[A-Za-z0-9.-]` (domain part of the email pattern). -/
def emailDomainCh (c : Char) : Bool := c.isAlpha || c.isDigit || c = '.' || c = '-'

/-- The class `[A-Z|a-z]` (top-level-domain part; note the literal `|` in the class). -/
def emailTldCh (c : Char) : Bool := c.isAlpha || c = '|'

/-- The email pattern of `extract_contact_info`:
`\b[A-Za-z0-9._%+-]+@[A-Za-z0-9.-]+\.[A-Z|a-z]{2,}\b`. -/
def emailRE : RE :=
  .seq .wb (.seq (.rep emailLocalCh 1 none)
    (.seq (.cls (· = '@')) (.seq (.rep emailDomainCh 1 none)
      (.seq (.cls (· = '.')) (.seq (.rep emailTldCh 2 none) .wb)))))

/-- The phone pattern of `extract_contact_info`:
`(\+?\d{1,3}[-.\s]?)?\(?\d{3}\)?[-.\s]?\d{3}[-.\s]?\d{4}` — note the one
capture group around the optional country-code prefix. -/
def phoneRE : RE :=
  .seq (.opt (.grp (.seq (.opt (.cls (· = '+')))
      (.seq (.rep digitCh 1 (some 3)) (.opt (.cls sepCh))))))
    (.seq (.opt (.cls (· = '(')))
    (.seq (.rep digitCh 3 (some 3))
    (.seq (.opt (.cls (· = ')')))
    (.seq (.opt (.cls sepCh))
    (.seq (.rep digitCh 3 (some 3))
    (.seq (.opt (.cls sepCh))
    (.rep digitCh 4 (some 4))))))))

/-- The `contact` dict of `extract_contact_info`. -/
structure Contact where
  email : Option (List Char)
  phone : Option (List Char)
deriving DecidableEq

/-- Model of `ResumeAnalyzer.extract_contact_info`.  Python `findall` returns the
full match texts for the (groupless) email pattern, and the group-1 texts
for the (one-group) phone pattern, with an unmatched group reported as the
empty string; the code keeps the first element of each list, or `None`. -/
def extract_contact_info (text : List Char) : Contact :=
  { email := ((findallPairs emailRE text).map (fun m => m.1)).head?
    phone := ((findallPairs phoneRE text).map (fun m => m.2.getD [])).head? }

/-- Python truthiness of an optional string (`None` and `""` are falsy). -/
def truthy : Option (List Char) → Bool
  | none => false
  | some s => !s.isEmpty

/-- The `analysis` dict of `analyze_resume_content`.  `overall_score` is
filled in last, from the other fields. -/
structure Analysis where
  word_count : Nat
  sections_found : List String
  missing_sections : List String
  keyword_scores : List (String × KScore)
  contact_info : Contact
  overall_score : ℚ
deriving DecidableEq

/-- Model of `ResumeAnalyzer.calculate_overall_score`. -/
def calculate_overall_score (analysis : Analysis) : ℚ :=
  let score := ((analysis.sections_found.length : ℚ) / 5) * 30
  let keyword_score :=
    ((analysis.keyword_scores.map (fun c => c.2.coverage_percentage)).sum / 3) * (0.4 : ℚ)
  let contact_score : ℚ :=
    if truthy analysis.contact_info.email || truthy analysis.contact_info.phone then 10 else 0
  round2 (min 100 (score + keyword_score + contact_score))

/-- Model of `ResumeAnalyzer.analyze_resume_content`. -/
def analyze_resume_content (text : List Char) : Analysis :=
  let sections := detect_sections text
  let pre : Analysis :=
    { word_count := wordCount text
      sections_found := sections
      missing_sections := find_missing_sections sections
      keyword_scores := analyze_keywords text
      contact_info := extract_contact_info text
      overall_score := 0 }
  { pre with overall_score := calculate_overall_score pre }

/-- The apostrophe character used in the section recommendation lines. -/
def squote : Char := Char.ofNat 39

/-- Python underscore-to-space replacement, `replace` with arguments underscore and space. -/
def replaceUnderscore (s : List Char) : List Char :=
  s.map (fun c => if c = '_' then ' ' else c)

/-- Python `str.title()` (ASCII): upper-case a letter that follows a
non-letter, lower-case the other letters; the flag records whether the
previous character was a letter. -/
def titleAux : Bool → List Char → List Char
  | _, [] => []
  | prevAlpha, c :: t =>
    (if c.isAlpha then (if prevAlpha then c.toLower else c.toUpper) else c) :: titleAux c.isAlpha t

def pyTitle (s : List Char) : List Char := titleAux false s

/-- The section recommendation line: the word Add, the quoted title-cased
section name with underscores replaced by spaces, then the word section. -/
def sectionRec (s : String) : List Char :=
  "Add ".toList ++ [squote] ++ pyTitle (replaceUnderscore s.toList) ++ [squote] ++ " section".toList

/-- The keyword recommendation line: Add more, the category name with
underscores replaced by spaces, then up to three missing keywords joined
by comma-space. -/
def keywordRec (category : String) (score : KScore) : List Char :=
  "Add more ".toList ++ replaceUnderscore category.toList ++ " like: ".toList
    ++ List.intercalate ", ".toList ((score.missing_keywords.take 3).map String.toList)

def emailRec : List Char := "Add professional email address".toList

def phoneRec : List Char := "Add phone number".toList

/-- Model of `ResumeAnalyzer.generate_recommendations`, with each Python
`recommendations.append` modelled as pushing onto the accumulator. -/
def generate_recommendations (analysis : Analysis) : List (List Char) :=
  let recs : List (List Char) :=
    analysis.missing_sections.foldl (fun acc s => acc ++ [sectionRec s]) []
  let recs :=
    analysis.keyword_scores.foldl
      (fun acc c => if c.2.coverage_percentage < 50 then acc ++ [keywordRec c.1 c.2] else acc)
      recs
  let recs := if !truthy analysis.contact_info.email then recs ++ [emailRec] else recs
  let recs := if !truthy analysis.contact_info.phone then recs ++ [phoneRec] else recs
  recs

/-- The scenario text of claim C3. -/
def scenarioText : List Char :=
  "I have experience in Python and SQL. Contact: jane@example.com, 555-123-4567.".toList

/-- A report with nothing missing: no missing sections, full coverage in
every category, both contact fields present (used as the C8 witness). -/
def fullReport : Analysis :=
  { word_count := 12
    sections_found := ["contact_info", "experience", "education", "skills", "projects"]
    missing_sections := []
    keyword_scores :=
      [("technical_skills", ⟨100, ["python"], []⟩),
       ("soft_skills", ⟨100, ["teamwork"], []⟩),
       ("action_verbs", ⟨100, ["led"], []⟩)]
    contact_info := ⟨some "jane@example.com".toList, some "555-123-4567".toList⟩
    overall_score := 80 }

/-! ### Helper lemmas -/

/-- The head of the `findall` scan is the leftmost (`search`) match. -/
lemma scanFrom_head (re : RE) (s : List Char) :
    ∀ fuel i, (scanFrom re s fuel i).head? = searchFrom re s fuel i := by
  intro fuel
  induction fuel with
  | zero => intro i; rfl
  | succ n ih =>
    intro i
    simp only [scanFrom, searchFrom]
    by_cases hb : s.length < i
    · simp [hb]
    · rcases hm : matchAt re s i with _ | ⟨len, g⟩ <;> simp [hb, hm, ih]

lemma findallPairs_head (re : RE) (s : List Char) :
    (findallPairs re s).head? = reSearch re s :=
  scanFrom_head re s (s.length + 1) 0

/-- A loop that appends one element per iteration builds `init ++ map`. -/
lemma foldl_push {β γ : Type} (f : β → γ) :
    ∀ (l : List β) (init : List γ),
      l.foldl (fun acc x => acc ++ [f x]) init = init ++ l.map f := by
  intro l
  induction l with
  | nil => intro init; simp
  | cons a t ih => intro init; simp [ih]

/-- A loop that conditionally appends one element per iteration builds
`init ++ (filter …).map`. -/
lemma foldl_push_filter {β γ : Type} (p : β → Prop) [DecidablePred p] (f : β → γ) :
    ∀ (l : List β) (init : List γ),
      l.foldl (fun acc x => if p x then acc ++ [f x] else acc) init
        = init ++ (l.filter (fun x => decide (p x))).map f := by
  intro l
  induction l with
  | nil => intro init; simp
  | cons a t ih =>
    intro init
    by_cases ha : p a <;> simp [ha, ih]

lemma round2_nonneg {q : ℚ} (h : 0 ≤ q) : 0 ≤ round2 q := by
  unfold round2
  have hr : (0 : ℤ) ≤ round (q * 100) := by
    rw [round_eq]
    exact Int.le_floor.mpr (by push_cast; linarith)
  exact div_nonneg (by exact_mod_cast hr) (by norm_num)

lemma round2_mono {a b : ℚ} (h : a ≤ b) : round2 a ≤ round2 b := by
  unfold round2
  have hr : round (a * 100) ≤ round (b * 100) := by
    rw [round_eq, round_eq]
    exact Int.floor_mono (by linarith)
  have hq : ((round (a * 100) : ℤ) : ℚ) ≤ ((round (b * 100) : ℤ) : ℚ) := by exact_mod_cast hr
  linarith

lemma round2_hundred : round2 100 = 100 := by with_unfolding_all decide

lemma coverage_nonneg (text : List Char) (keywords : List String) :
    0 ≤ (kscoreOf text keywords).coverage_percentage := by
  simp only [kscoreOf]
  apply round2_nonneg
  split
  · exact le_refl 0
  · positivity

/-- The three summands of the overall score are nonnegative. -/
lemma score_terms_nonneg (text : List Char) :
    0 ≤ ((detect_sections text).length : ℚ) / 5 * 30
        + ((analyze_keywords text).map (fun c => c.2.coverage_percentage)).sum / 3 * (0.4 : ℚ)
        + (if truthy (extract_contact_info text).email || truthy (extract_contact_info text).phone
            then (10 : ℚ) else 0) := by
  have hsum : 0 ≤ ((analyze_keywords text).map (fun c => c.2.coverage_percentage)).sum := by
    apply List.sum_nonneg
    intro x hx
    rcases List.mem_map.mp hx with ⟨c, hc, rfl⟩
    rcases List.mem_map.mp hc with ⟨cc, _, rfl⟩
    exact coverage_nonneg text cc.2
  have h1 : (0 : ℚ) ≤ ((detect_sections text).length : ℚ) / 5 * 30 := by positivity
  have h2 : (0 : ℚ)
      ≤ ((analyze_keywords text).map (fun c => c.2.coverage_percentage)).sum / 3 * (0.4 : ℚ) := by
    have := div_nonneg hsum (by norm_num : (0:ℚ) ≤ 3)
    nlinarith
  have h3 : (0 : ℚ)
      ≤ (if truthy (extract_contact_info text).email || truthy (extract_contact_info text).phone
          then (10 : ℚ) else 0) := by
    split <;> norm_num
  linarith

/-! ### The claims -/

/-- Claim C1: for every input text, the overall score computed by
`calculate_overall_score` equals (number of detected sections / 5) × 30
plus (arithmetic mean of the three keyword-category coverage percentages)
× 0.4 plus 10 if at least one contact field is non-empty else 0, clamped
to [0, 100] and rounded to 2 decimals. -/
theorem overall_score_formula (text : List Char) :
    (analyze_resume_content text).overall_score =
      round2 (max 0 (min 100
        (((detect_sections text).length : ℚ) / 5 * 30
          + ((analyze_keywords text).map (fun c => c.2.coverage_percentage)).sum / 3 * (0.4 : ℚ)
          + (if truthy (extract_contact_info text).email ||
                truthy (extract_contact_info text).phone then (10 : ℚ) else 0)))) := by
  rw [max_eq_right (le_min (by norm_num) (score_terms_nonneg text))]
  rfl

/-- Claim C4: for every input text, including the empty string, the overall
score lies in the closed interval [0, 100]. -/
theorem overall_score_bounded (text : List Char) :
    0 ≤ (analyze_resume_content text).overall_score ∧
      (analyze_resume_content text).overall_score ≤ 100 := by
  have hrepr : (analyze_resume_content text).overall_score =
      round2 (min 100
        (((detect_sections text).length : ℚ) / 5 * 30
          + ((analyze_keywords text).map (fun c => c.2.coverage_percentage)).sum / 3 * (0.4 : ℚ)
          + (if truthy (extract_contact_info text).email ||
                truthy (extract_contact_info text).phone then (10 : ℚ) else 0))) := rfl
  constructor
  · rw [hrepr]
    exact round2_nonneg (le_min (by norm_num) (score_terms_nonneg text))
  · rw [hrepr]
    calc round2 _ ≤ round2 100 := round2_mono (min_le_left _ _)
      _ = 100 := round2_hundred

/-- Claim C2, counterexample: on the text `"555-123-4567"` the first (and
only) match of the phone regex is the full number, but
`extract_contact_info` stores the empty string — the value of the
unmatched optional capture group — so the phone field is NOT the first
match of the phone regex. -/
theorem extract_phone_counterexample :
    (reSearch phoneRE "555-123-4567".toList).map (fun m => m.1)
        = some "555-123-4567".toList ∧
    (extract_contact_info "555-123-4567".toList).phone = some [] ∧
    some ([] : List Char) ≠ some "555-123-4567".toList := by decide

/-- Claim C2, amended: for every input text, `extract_contact_info` returns
as email the full text of the first match of the email regex (or none),
and as phone the group-1 capture of the first match of the phone regex —
the optional country-code prefix, which is the empty string when that
group did not participate — (or none if there is no match); all matches
after the first are discarded. -/
theorem extract_contact_first_match (text : List Char) :
    (extract_contact_info text).email = (reSearch emailRE text).map (fun m => m.1) ∧
    (extract_contact_info text).phone = (reSearch phoneRE text).map (fun m => m.2.getD []) := by
  constructor
  · show ((findallPairs emailRE text).map (fun m => m.1)).head? = _
    rw [List.head?_map, findallPairs_head]
  · show ((findallPairs phoneRE text).map (fun m => m.2.getD [])).head? = _
    rw [List.head?_map, findallPairs_head]

/-- Claim C3, counterexample: on the scenario text the extracted phone is
the empty string, which is not a match of the phone pattern against
`"555-123-4567"` (the only match of that pattern there is the full number). -/
theorem scenario_phone_counterexample :
    (extract_contact_info scenarioText).phone = some [] ∧
    findallFulls phoneRE "555-123-4567".toList = ["555-123-4567".toList] ∧
    ([] : List Char) ∉ findallFulls phoneRE "555-123-4567".toList := by decide

/-- Claim C3, amended: on the scenario text the analysis detects the
section tags `experience` and `contact_info`, and the extracted email is
`"jane@example.com"`; but the extracted phone is the empty string (the
unmatched optional capture group), not a match of the phone pattern. -/
theorem scenario_report :
    "experience" ∈ detect_sections scenarioText ∧
    "contact_info" ∈ detect_sections scenarioText ∧
    (extract_contact_info scenarioText).email = some "jane@example.com".toList ∧
    (extract_contact_info scenarioText).phone = some [] := by decide

/-- Each fixed keyword list is duplicate-free and non-empty. -/
lemma keyword_categories_wf : ∀ c ∈ keyword_categories, c.2.Nodup ∧ c.2 ≠ [] := by decide

/-- Claim C5: for every input text and keyword category, the
`found_keywords` and `missing_keywords` lists are disjoint, duplicate-free,
and their union is exactly the fixed vocabulary of that category; and
`coverage_percentage` is (|found| / category size) × 100 rounded to two
decimals. -/
theorem analyze_keywords_partition (text : List Char) (cat : String) (ks : KScore)
    (h : (cat, ks) ∈ analyze_keywords text) :
    ∃ kws : List String, (cat, kws) ∈ keyword_categories ∧
      ks.found_keywords.Nodup ∧ ks.missing_keywords.Nodup ∧
      (∀ kw, ¬(kw ∈ ks.found_keywords ∧ kw ∈ ks.missing_keywords)) ∧
      (∀ kw, kw ∈ kws ↔ (kw ∈ ks.found_keywords ∨ kw ∈ ks.missing_keywords)) ∧
      ks.coverage_percentage
        = round2 ((ks.found_keywords.length : ℚ) / (kws.length : ℚ) * 100) := by
  rcases List.mem_map.mp h with ⟨⟨cname, kws⟩, hc, heq⟩
  injection heq with h1 h2
  subst h1
  subst h2
  obtain ⟨hnd, hne⟩ := keyword_categories_wf _ hc
  refine ⟨kws, hc, ?_, ?_, ?_, ?_, ?_⟩
  · exact hnd.filter _
  · exact hnd.filter _
  · rintro kw ⟨hf, hm⟩
    have := of_decide_eq_true (List.mem_filter.mp hm).2
    simp only [kscoreOf] at hf this
    exact this hf
  · intro kw
    constructor
    · intro hkw
      by_cases hf : kw ∈ (kscoreOf text kws).found_keywords
      · exact Or.inl hf
      · refine Or.inr ?_
        simp only [kscoreOf] at hf ⊢
        exact List.mem_filter.mpr ⟨hkw, decide_eq_true hf⟩
    · rintro (hf | hm)
      · simp only [kscoreOf] at hf
        exact (List.mem_filter.mp hf).1
      · simp only [kscoreOf] at hm
        exact (List.mem_filter.mp hm).1
  · rcases kws with _ | ⟨a, t⟩
    · exact absurd rfl hne
    · simp [kscoreOf]

/-- Witness for claim C5 at the empty text and the technical-skills
category. -/
theorem analyze_keywords_partition_witness :
    ("technical_skills",
        kscoreOf []
          ["python", "java", "javascript", "sql", "html", "css", "react", "git", "aws"])
      ∈ analyze_keywords [] ∧
    (∃ kws : List String, ("technical_skills", kws) ∈ keyword_categories ∧
      (kscoreOf []
          ["python", "java", "javascript", "sql", "html", "css", "react", "git", "aws"]
        ).found_keywords.Nodup ∧
      (kscoreOf []
          ["python", "java", "javascript", "sql", "html", "css", "react", "git", "aws"]
        ).missing_keywords.Nodup ∧
      (∀ kw, ¬(kw ∈ (kscoreOf []
          ["python", "java", "javascript", "sql", "html", "css", "react", "git", "aws"]
        ).found_keywords ∧ kw ∈ (kscoreOf []
          ["python", "java", "javascript", "sql", "html", "css", "react", "git", "aws"]
        ).missing_keywords)) ∧
      (∀ kw, kw ∈ kws ↔ (kw ∈ (kscoreOf []
          ["python", "java", "javascript", "sql", "html", "css", "react", "git", "aws"]
        ).found_keywords ∨ kw ∈ (kscoreOf []
          ["python", "java", "javascript", "sql", "html", "css", "react", "git", "aws"]
        ).missing_keywords)) ∧
      (kscoreOf []
          ["python", "java", "javascript", "sql", "html", "css", "react", "git", "aws"]
        ).coverage_percentage
        = round2 (((kscoreOf []
          ["python", "java", "javascript", "sql", "html", "css", "react", "git", "aws"]
        ).found_keywords.length : ℚ) / (kws.length : ℚ) * 100)) :=
  ⟨by with_unfolding_all decide,
    analyze_keywords_partition [] "technical_skills" _ (by with_unfolding_all decide)⟩

/-- Claim C6: for every input text the detected important sections and the
missing sections are disjoint, their union is exactly
{contact_info, experience, education, skills}, and the missing list is the
important vocabulary minus the detected set. -/
theorem sections_partition (text : List Char) :
    (∀ s, s ∈ (analyze_resume_content text).sections_found →
        s ∉ (analyze_resume_content text).missing_sections) ∧
    (∀ s, s ∈ important_sections ↔
        ((s ∈ important_sections ∧ s ∈ (analyze_resume_content text).sections_found) ∨
          s ∈ (analyze_resume_content text).missing_sections)) ∧
    (analyze_resume_content text).missing_sections
      = important_sections.filter
          (fun s => decide (s ∉ (analyze_resume_content text).sections_found)) := by
  have h2 : (analyze_resume_content text).sections_found = detect_sections text := rfl
  have h1 : (analyze_resume_content text).missing_sections
      = important_sections.filter (fun s => decide (s ∉ detect_sections text)) := rfl
  rw [h1, h2]
  refine ⟨?_, ?_, rfl⟩
  · intro s hs hm
    exact of_decide_eq_true (List.mem_filter.mp hm).2 hs
  · intro s
    constructor
    · intro hs
      by_cases hd : s ∈ detect_sections text
      · exact Or.inl ⟨hs, hd⟩
      · exact Or.inr (List.mem_filter.mpr ⟨hs, decide_eq_true hd⟩)
    · rintro (⟨hs, _⟩ | hm)
      · exact hs
      · exact (List.mem_filter.mp hm).1

/-- Claim C7: for every analysis report, `generate_recommendations`
produces exactly one line per missing section of the form
Add quoted-section-title section (underscores replaced by spaces,
title-cased), then for each keyword category with coverage below 50 one
line naming up to 3 of its missing keywords, then one line if the email is
absent, then one line if the phone is absent — in exactly that order. -/
theorem recommendations_structure (analysis : Analysis) :
    generate_recommendations analysis =
      analysis.missing_sections.map (fun s =>
          "Add ".toList ++ [squote] ++ pyTitle (replaceUnderscore s.toList) ++ [squote]
            ++ " section".toList)
        ++ (analysis.keyword_scores.filter
              (fun c => decide (c.2.coverage_percentage < 50))).map
            (fun c => "Add more ".toList ++ replaceUnderscore c.1.toList ++ " like: ".toList
              ++ List.intercalate ", ".toList ((c.2.missing_keywords.take 3).map String.toList))
        ++ (if truthy analysis.contact_info.email then [] else [emailRec])
        ++ (if truthy analysis.contact_info.phone then [] else [phoneRec]) := by
  simp only [generate_recommendations]
  rw [foldl_push sectionRec,
    foldl_push_filter (fun c : String × KScore => c.2.coverage_percentage < 50)
      (fun c => keywordRec c.1 c.2)]
  by_cases he : truthy analysis.contact_info.email <;>
    by_cases hp : truthy analysis.contact_info.phone <;>
      simp [he, hp, sectionRec, keywordRec, List.append_assoc]

/-- Claim C8: a report with no missing sections, 100% coverage in every
keyword category, and both contact fields present produces no
recommendations. -/
theorem recommendations_empty_of_perfect (analysis : Analysis)
    (h1 : analysis.missing_sections = [])
    (h2 : ∀ c ∈ analysis.keyword_scores, c.2.coverage_percentage = 100)
    (h3 : truthy analysis.contact_info.email = true)
    (h4 : truthy analysis.contact_info.phone = true) :
    generate_recommendations analysis = [] := by
  have hf : analysis.keyword_scores.filter
      (fun c => decide (c.2.coverage_percentage < 50)) = [] := by
    rw [List.filter_eq_nil_iff]
    intro c hc
    rw [h2 c hc]
    norm_num
  simp only [generate_recommendations]
  rw [foldl_push sectionRec,
    foldl_push_filter (fun c : String × KScore => c.2.coverage_percentage < 50)
      (fun c => keywordRec c.1 c.2), h1, hf]
  simp [h3, h4]

/-- Witness for claim C8 at a concrete perfect report. -/
theorem recommendations_empty_of_perfect_witness :
    fullReport.missing_sections = [] ∧
    (∀ c ∈ fullReport.keyword_scores, c.2.coverage_percentage = 100) ∧
    truthy fullReport.contact_info.email = true ∧
    truthy fullReport.contact_info.phone = true ∧
    generate_recommendations fullReport = [] :=
  ⟨rfl, by with_unfolding_all decide, rfl, rfl,
    recommendations_empty_of_perfect fullReport rfl (by with_unfolding_all decide) rfl rfl⟩

/-- Claim C9: on the empty input text the report has word count 0, 0%
coverage in all three keyword categories, all four important sections
missing, no email, no phone, and overall score 0. -/
theorem empty_text_report :
    (analyze_resume_content []).word_count = 0 ∧
    (∀ c ∈ (analyze_resume_content []).keyword_scores, c.2.coverage_percentage = 0) ∧
    (analyze_resume_content []).missing_sections
      = ["contact_info", "experience", "education", "skills"] ∧
    (analyze_resume_content []).contact_info.email = none ∧
    (analyze_resume_content []).contact_info.phone = none ∧
    (analyze_resume_content []).overall_score = 0 := by
  with_unfolding_all decide

/-- Claim C10: when the only phone-pattern occurrence in the text is a bare
number with no country-code prefix (so the one capture group of the phone
pattern never participates) and there is no email match, the phone field
is set to the empty string, which is falsy downstream: the contact
component of the overall score is 0 and the "Add phone number"
recommendation is still emitted. -/
theorem bare_phone_group_quirk (text : List Char)
    (h1 : ∃ m, findallPairs phoneRE text = [(m, none)])
    (h2 : findallPairs emailRE text = []) :
    (extract_contact_info text).phone = some [] ∧
    (extract_contact_info text).email = none ∧
    (if truthy (extract_contact_info text).email || truthy (extract_contact_info text).phone
        then (10 : ℚ) else 0) = 0 ∧
    phoneRec ∈ generate_recommendations (analyze_resume_content text) := by
  obtain ⟨m, hm⟩ := h1
  have hp : (extract_contact_info text).phone = some [] := by
    simp [extract_contact_info, hm]
  have he : (extract_contact_info text).email = none := by
    simp [extract_contact_info, h2]
  refine ⟨hp, he, ?_, ?_⟩
  · rw [he, hp]
    rfl
  · have hc : (analyze_resume_content text).contact_info = extract_contact_info text := rfl
    simp only [generate_recommendations]
    rw [hc, hp]
    simp [truthy]

/-- Witness for claim C10 at the text `"555-123-4567"`. -/
theorem bare_phone_group_quirk_witness :
    (∃ m, findallPairs phoneRE "555-123-4567".toList = [(m, none)]) ∧
    findallPairs emailRE "555-123-4567".toList = [] ∧
    ((extract_contact_info "555-123-4567".toList).phone = some [] ∧
      (extract_contact_info "555-123-4567".toList).email = none ∧
      (if truthy (extract_contact_info "555-123-4567".toList).email ||
          truthy (extract_contact_info "555-123-4567".toList).phone
          then (10 : ℚ) else 0) = 0 ∧
      phoneRec ∈ generate_recommendations (analyze_resume_content "555-123-4567".toList)) :=
  ⟨⟨"555-123-4567".toList, by decide⟩, by decide,
    bare_phone_group_quirk "555-123-4567".toList ⟨"555-123-4567".toList, by decide⟩ (by decide)⟩

